import Mathlib

/-!
Verification development for the discharge-documentation-generator
repository: a shallow embedding of the patient-file normalization and
LLM-letter generation pipeline described in the specification, together
with the pseudonymization expressions of the SQL extraction queries
under `data/sql/`.

The Python package implementing the pipeline (normalizer, prompt builder,
letter generator, letter store) is not present in the source tree; those
components are modelled from the specification, as marked on each
definition.  The SQL queries and the LLM user prompt are present and are
embedded directly.
-/

namespace DischargeDocs

/-- Decidable equality for `Except`, used to evaluate the embedded
functions on concrete inputs. -/
instance {ε α : Type} [DecidableEq ε] [DecidableEq α] : DecidableEq (Except ε α) := fun x y =>
  match x, y with
  | .ok a, .ok b =>
    if h : a = b then .isTrue (by rw [h]) else .isFalse (by intro hc; cases hc; exact h rfl)
  | .error a, .error b =>
    if h : a = b then .isTrue (by rw [h]) else .isFalse (by intro hc; cases hc; exact h rfl)
  | .ok _, .error _ => .isFalse (by intro hc; cases hc)
  | .error _, .ok _ => .isFalse (by intro hc; cases hc)

/-- Calendar date (year, month, day), the authored timestamp of a note.
Modelled from the spec: "authored timestamp" of a PatientFileEntry,
rendered in prompts in day-month-year form such as `31-01-2024`. -/
structure Date where
  year : Nat
  month : Nat
  day : Nat
deriving DecidableEq, Repr

/-- Modelled from the spec: raw source row for one admission as supplied
by the upstream data source (system A shape `{category, timestamp,
content}`; the encounter id and department are carried by the admission,
since the caller supplies rows for one admission at a time).  `content`
is `none` for a null free-text field. -/
structure RawRow where
  category : String
  date : Date
  content : Option String
deriving DecidableEq, Repr

/-- Modelled from the spec: one dated, categorized text entry of the
canonical patient file produced by the normalizer. -/
structure PatientFileEntry where
  category : String
  date : Date
  content : String
deriving DecidableEq, Repr

/-- Modelled from the spec: per-department configuration, the fixed
ordered category list a generated letter must cover. -/
structure Department where
  name : String
  categories : List String
deriving DecidableEq, Repr

/-- Lexicographic less-or-equal on lists of naturals; the ordering key
of normalized entries is encoded as such a list. -/
def natListLe : List Nat → List Nat → Bool
  | [], _ => true
  | _ :: _, [] => false
  | a :: as, b :: bs =>
    if a < b then true
    else if a = b then natListLe as bs
    else false

/-- Ordering key of an entry: authored timestamp first, then category
(category compared by its character codes). -/
def entryKey (e : PatientFileEntry) : List Nat :=
  e.date.year :: e.date.month :: e.date.day :: e.category.data.map Char.toNat

/-- The "(authored timestamp, category) ascending" order contract of the
normalizer (spec §4.2 step 5). -/
def entryLe (a b : PatientFileEntry) : Prop :=
  natListLe (entryKey a) (entryKey b) = true

instance : DecidableRel entryLe := fun a b =>
  inferInstanceAs (Decidable (natListLe (entryKey a) (entryKey b) = true))

/-- Modelled from the spec: the qualifying entries of a raw row set for a
department — exact duplicate rows discarded, rows with null or empty
content dropped, rows whose category is absent from the department's
category set dropped (system A mapping, spec §4.2 steps 1-2). -/
def qualifying (dept : Department) (rows : List RawRow) : List PatientFileEntry :=
  rows.dedup.filterMap fun r =>
    r.content.bind fun c =>
      if c = "" then none
      else if r.category ∈ dept.categories then some ⟨r.category, r.date, c⟩
      else none

/-- Error raised by the normalizer when no entries remain (spec §4.2):
"if zero entries remain after filtering, normalization fails with
`EmptyPatientFileError`". -/
inductive EmptyPatientFileError
  | mk
deriving DecidableEq, Repr

/-- Modelled from the spec: the Patient-File Normalizer, missing from the
source tree.  Discards exact duplicate rows, drops null/empty content and
categories outside the department set, sorts the result by
(authored timestamp, category) ascending, and fails with
`EmptyPatientFileError` when nothing remains (spec §4.2). -/
def normalize (dept : Department) (rows : List RawRow) :
    Except EmptyPatientFileError (List PatientFileEntry) :=
  if (List.insertionSort entryLe (qualifying dept rows)).isEmpty then .error .mk
  else .ok (List.insertionSort entryLe (qualifying dept rows))

/-- The instruction block of the LLM user prompt, transcribed line by
line from `src/discharge_docs/llm/prompts/user_prompt.txt` (zero-width
spaces stripped; the literal braces of the JSON example are written as
escapes). -/
def userPromptInstruction : List String :=
  ["# Instructie",
   "",
   "Hieronder volgt het dossier van een ziekenhuisopname van een patiënt.",
   "Je taak is om een deel van de ontslagbrief te schrijven over het beloop van de opname aan de hand van het dossier.",
   "Je moet een gedetailleerde samenvatting schrijven, zonder informatie te verliezen.",
   "Je moet dit in chronologische volgorde schrijven.",
   "Je moet de datum vermelden indien beschikbaar, bijvoorbeeld 31-01-2024.",
   "Gebruik lopende zinnen om het beloop te omschrijven.",
   "",
   "## Format",
   "",
   "Het antwoord moet in het volgende JSON format gegeven worden:",
   "\x7b\"Categorie1\": *Tekstuele samenvatting van het beloop voor categorie 1*, \"Categorie2\": *Tekstuele samenvatting van het beloop voor categorie 2*\x7d",
   "De namen van de categorieën (\"Categorie1\" en \"Categorie2\" in het voorbeeld), moeten worden vervangen door de echte categorieën, die hieronder staan beschreven."]

/-- The decimal digit character of `n % 10`. -/
def digitOf (n : Nat) : Char := Char.ofNat (48 + n % 10)

/-- Two-digit zero-padded decimal rendering. -/
def pad2 (n : Nat) : String := String.mk [digitOf (n / 10), digitOf n]

/-- Four-digit zero-padded decimal rendering. -/
def pad4 (n : Nat) : String :=
  String.mk [digitOf (n / 1000), digitOf (n / 100), digitOf (n / 10), digitOf n]

/-- Day-month-year date rendering used in the prompt, e.g. `31-01-2024`
(the format named in the user prompt instruction). -/
def formatDate (d : Date) : String := pad2 d.day ++ "-" ++ pad2 d.month ++ "-" ++ pad4 d.year

/-- Modelled from the spec: serialization of the normalized entries into
the user-prompt text block, one line per entry, in the order produced by
the normalizer — date first, then category, then content (spec §4.3:
"grouped by date then category"). -/
def serializeEntries (entries : List PatientFileEntry) : List String :=
  entries.map fun e => formatDate e.date ++ " " ++ e.category ++ ": " ++ e.content

/-- Modelled from the spec: the lines of the full user prompt — the
instruction block followed by the serialized patient file. -/
def userPromptLines (entries : List PatientFileEntry) : List String :=
  userPromptInstruction ++ serializeEntries entries

/-- Modelled from the spec: the user prompt as one text block. -/
def userPromptText (entries : List PatientFileEntry) : String :=
  String.intercalate "\n" (userPromptLines entries)

/-- Whether the character list `p` is an initial segment of `s`. -/
def charsStart : List Char → List Char → Bool
  | [], _ => true
  | _ :: _, [] => false
  | a :: as, b :: bs => a == b && charsStart as bs

/-- Whether string `p` starts string `s`. -/
def strStartsWith (p s : String) : Bool := charsStart p.data s.data

/-- Index of the first line starting with the given text, if any. -/
def firstLineIdx (lines : List String) (p : String) : Option Nat :=
  lines.findIdx? (strStartsWith p)

/-- Error raised by the Prompt Builder when the serialized block exceeds
the configured token ceiling (spec §4.3). -/
inductive LengthError
  | mk
deriving DecidableEq, Repr

/-- Modelled from the spec: run-time configuration of the Prompt Builder
and Letter Generator — system-prompt lookup by department code, the
model-specific approximate tokenizer, and the token ceiling (spec §4.3).
The tokenizer is abstracted as a function parameter. -/
structure PromptConfig where
  systemPromptFor : String → String
  tokenCount : String → Nat
  ceiling : Nat

/-- The prompt pair handed to the model service. -/
structure Prompt where
  systemPrompt : String
  userPrompt : String
deriving DecidableEq, Repr

/-- Modelled from the spec: the Prompt Builder, missing from the source
tree.  Serializes the entries, computes the approximate token count and
fails with `LengthError` when the serialized block exceeds the configured
ceiling (spec §4.3). -/
def build (cfg : PromptConfig) (dept : Department) (entries : List PatientFileEntry) :
    Except LengthError Prompt :=
  let block := userPromptText entries
  if cfg.ceiling < cfg.tokenCount block then .error .mk
  else .ok ⟨cfg.systemPromptFor dept.name, block⟩

/-- Modelled from the spec: outcome status of one generation attempt for
one admission — `success` carries the per-category mapping; the failure
constructors are the error taxonomy of spec §7 that can arise inside one
admission's pipeline run. -/
inductive Outcome
  | success (letter : List (String × String))
  | redactionFailed
  | emptyPatientFile
  | lengthExceeded
  | modelFailed
  | validationFailed
deriving DecidableEq, Repr

/-- Whether two key lists contain exactly the same keys (case-sensitive,
order-insensitive): every key of one occurs in the other. -/
def keySetEq (ks expected : List String) : Bool :=
  (ks.all fun k => expected.contains k) && (expected.all fun k => ks.contains k)

/-- Modelled from the spec: the LLM Letter Generator, missing from the
source tree.  The model service is a function parameter returning the
parsed JSON object as a key-value list, or `none` on transport/service
failure.  On service failure the outcome is `modelFailed`; on success the
key set is validated against the department's expected category list —
mismatch yields `validationFailed`, otherwise `success` (spec §4.4). -/
def generate (model : Prompt → Option (List (String × String))) (p : Prompt)
    (dept : Department) : Outcome :=
  match model p with
  | none => .modelFailed
  | some kvs =>
    if keySetEq (kvs.map Prod.fst) dept.categories then .success kvs
    else .validationFailed

/-- Modelled from the spec: the Redaction Adapter applied entry-wise,
missing from the source tree.  The underlying redaction capability is a
function parameter; `none` models the capability throwing, which the
adapter surfaces as a redaction failure for the whole admission
(spec §4.1). -/
def redactEntries (redact : String → Option String) :
    List PatientFileEntry → Option (List PatientFileEntry)
  | [] => some []
  | e :: es =>
    match redact e.content, redactEntries redact es with
    | some c, some rest => some ({ e with content := c } :: rest)
    | _, _ => none

/-- Modelled from the spec: one admission's input to the pipeline —
identifier, department, and the raw rows supplied for it. -/
structure Admission where
  id : Nat
  dept : Department
  rows : List RawRow
deriving DecidableEq, Repr

/-- Modelled from the spec: observable trace of one admission's pipeline
run — the outcome, how many times the model service was invoked, and
every text handed to a component downstream of the Redaction Adapter
(Prompt Builder input contents and the built user prompt). -/
structure RunTrace where
  outcome : Outcome
  modelCalls : Nat
  sentDownstream : List String
deriving DecidableEq, Repr

/-- Modelled from the spec: the per-admission pipeline (spec §2 data
flow): normalize, redact, build, generate; each failure is terminal for
the admission and recorded as the outcome; no step is retried within the
run.  The redaction capability and the model service are function
parameters. -/
def runPipeline (redact : String → Option String)
    (model : Prompt → Option (List (String × String)))
    (cfg : PromptConfig) (adm : Admission) : RunTrace :=
  match normalize adm.dept adm.rows with
  | .error _ => ⟨.emptyPatientFile, 0, []⟩
  | .ok entries =>
    match redactEntries redact entries with
    | none => ⟨.redactionFailed, 0, []⟩
    | some red =>
      match build cfg adm.dept red with
      | .error _ => ⟨.lengthExceeded, 0, red.map (·.content)⟩
      | .ok p =>
        ⟨generate model p adm.dept, 1, red.map (·.content) ++ [p.userPrompt]⟩

/-- Modelled from the spec: a batch run — each admission is processed
independently, exactly once, and its outcome status is persisted as a
`(admission id, outcome)` record even when the attempt fails (spec §7
propagation policy). -/
def runBatch (redact : String → Option String)
    (model : Prompt → Option (List (String × String)))
    (cfg : PromptConfig) (adms : List Admission) : List (Nat × Outcome) :=
  adms.map fun a => (a.id, (runPipeline redact model cfg a).outcome)

/-- Modelled from the spec: one persisted letter row of the Letter Store
— admission identifier, generation timestamp, per-category mapping, and
the "current" flag (spec §6 persisted state layout). -/
structure StoredLetter where
  admissionId : Nat
  genTimestamp : Nat
  letter : List (String × String)
  isCurrent : Bool
deriving DecidableEq, Repr

/-- Modelled from the spec: `save` of the Letter Store, missing from the
source tree.  Inserts a new row flagged current and clears the current
flag on every prior row of the same admission; prior rows are retained
(spec §4.5). -/
def save (store : List StoredLetter) (aid ts : Nat) (l : List (String × String)) :
    List StoredLetter :=
  (store.map fun r =>
    if r.admissionId = aid then { r with isCurrent := false } else r) ++ [⟨aid, ts, l, true⟩]

/-- Modelled from the spec: the history query — every retained
(timestamp, letter) pair for an admission, in insertion order. -/
def history (store : List StoredLetter) (aid : Nat) : List (Nat × List (String × String)) :=
  (store.filter fun r => r.admissionId = aid).map fun r => (r.genTimestamp, r.letter)

/-- Modelled from the spec: `getLatest` of the Letter Store — the
(timestamp, letter) pair of the row flagged current for the admission,
or `none` when no such row exists. -/
def getLatest (store : List StoredLetter) (aid : Nat) : Option (Nat × List (String × String)) :=
  match store.filter (fun r => r.admissionId = aid && r.isCurrent) with
  | [] => none
  | r :: _ => some (r.genTimestamp, r.letter)

/-- Number of rows flagged current for an admission. -/
def currentCount (store : List StoredLetter) (aid : Nat) : Nat :=
  (store.filter fun r => r.admissionId = aid && r.isCurrent).length

/-- A sequence of save calls applied to a store, in order; each operation
is (admission id, generation timestamp, letter). -/
def applySaves (store : List StoredLetter)
    (ops : List (Nat × Nat × List (String × String))) : List StoredLetter :=
  ops.foldl (fun st op => save st op.1 op.2.1 op.2.2) store

/-- Modelled from the spec: whether a stored letter is older than the
retention window at time `now` (timestamps and the window in the same
unit, e.g. days). -/
def isStale (now window : Nat) (r : StoredLetter) : Bool :=
  window < now - r.genTimestamp

/-- Modelled from the spec: `purgeOlderThan` of the Letter Store, missing
from the source tree — bulk delete of the letters whose generation
timestamp is older than the retention window, returning the surviving
store and the number of rows deleted (spec §4.5). -/
def purgeOlderThan (store : List StoredLetter) (now window : Nat) :
    List StoredLetter × Nat :=
  let kept := store.filter fun r => !isStale now window r
  (kept, store.length - kept.length)

/-- The pseudo_id expression shared by the extraction queries
(`data/sql/data_extraction_metavision.sql` and
`data/sql/metavision_deploy.sql`):
CONVERT(VARCHAR(64), HASHBYTES(SHA2_256, CONCAT(patient_value, aiva)), 2)
— the SHA2-256 digest together with its hexadecimal rendering is
abstracted as the function parameter `sha2hex`. -/
def pseudo_id (sha2hex : String → String) (patientValue : String) : String :=
  sha2hex (patientValue ++ "aiva")

/-- Encounter attributes selected by the Metavision NiFi extraction query
(`data/sql/data_extraction_metavision.sql`, first deploy SELECT): only
the columns feeding the selected fields are modelled. -/
structure MetavisionEncounter where
  subject_Patient_value : String
  identifier_value : String
  period_start : Nat
  location_Location_value_original : String
deriving DecidableEq, Repr

/-- Encounter attributes selected by the HiX NiFi extraction query
(`data/sql/data_extraction_metavision.sql`, UNION ALL branch). -/
structure HixEncounter where
  subject_Patient_value : String
  identifier_value : String
  period_start : Nat
  specialty_Organization_value : String
deriving DecidableEq, Repr

/-- pseudo_id column of the Metavision NiFi query: the hash expression
applied to `enc.subject_Patient_value`
(`data/sql/data_extraction_metavision.sql` lines 40-47). -/
def metavisionPseudoId (sha2hex : String → String) (enc : MetavisionEncounter) : String :=
  pseudo_id sha2hex enc.subject_Patient_value

/-- pseudo_id column of the HiX NiFi query: the hash expression applied
to `enc1.subject_Patient_value`
(`data/sql/data_extraction_metavision.sql` lines 80-87). -/
def hixPseudoId (sha2hex : String → String) (enc : HixEncounter) : String :=
  pseudo_id sha2hex enc.subject_Patient_value

/-- pseudo_id column of the deploy query
(`data/sql/metavision_deploy.sql` lines 31-38), same expression over
`enc.subject_Patient_value`. -/
def deployPseudoId (sha2hex : String → String) (enc : MetavisionEncounter) : String :=
  pseudo_id sha2hex enc.subject_Patient_value

/-- Concrete department used by the specification's scenarios: the fixed
category set of an intensive-care letter. -/
def icDept : Department := ⟨"IC", ["Respiratie", "Circulatie", "Neurologie", "Infectie"]⟩

/-- Scenario row of C6: category Respiratie dated 2024-04-20. -/
def respRow : RawRow := ⟨"Respiratie", ⟨2024, 4, 20⟩, some "beademing gestart"⟩

/-- Scenario row of C6: category Infectie dated 2024-04-19. -/
def infRow : RawRow := ⟨"Infectie", ⟨2024, 4, 19⟩, some "antibiotica gestart"⟩

/-- Scenario admission of C6: encounter 1001 with the two rows above. -/
def scenarioAdmission : Admission := ⟨1001, icDept, [respRow, infRow]⟩

/-- Normalized entry of `infRow`. -/
def infEntry : PatientFileEntry := ⟨"Infectie", ⟨2024, 4, 19⟩, "antibiotica gestart"⟩

/-- Normalized entry of `respRow`. -/
def respEntry : PatientFileEntry := ⟨"Respiratie", ⟨2024, 4, 20⟩, "beademing gestart"⟩

/-- Scenario letter payloads for the Letter Store claims. -/
def letterA : List (String × String) := [("Respiratie", "eerste brief")]

/-- Second scenario letter payload. -/
def letterB : List (String × String) := [("Respiratie", "tweede brief")]

end DischargeDocs

namespace DischargeDocs

theorem natListLe_nil (bs : List Nat) : natListLe [] bs = true := rfl

theorem natListLe_total : ∀ as bs : List Nat, natListLe as bs = true ∨ natListLe bs as = true
  | [], _ => Or.inl rfl
  | _ :: _, [] => Or.inr rfl
  | a :: as, b :: bs => by
    simp only [natListLe]
    rcases Nat.lt_trichotomy a b with h | h | h
    · left
      simp [h]
    · subst h
      simpa [Nat.lt_irrefl] using natListLe_total as bs
    · right
      simp [h]

theorem natListLe_trans :
    ∀ as bs cs : List Nat,
      natListLe as bs = true → natListLe bs cs = true → natListLe as cs = true
  | [], _, _, _, _ => rfl
  | _ :: _, [], _, h1, _ => by simp [natListLe] at h1
  | _ :: _, _ :: _, [], _, h2 => by simp [natListLe] at h2
  | a :: as, b :: bs, c :: cs, h1, h2 => by
    simp only [natListLe] at h1 h2 ⊢
    by_cases hab : a < b
    · by_cases hbc : b < c
      · simp [Nat.lt_trans hab hbc]
      · by_cases hbc2 : b = c
        · subst hbc2
          simp [hab]
        · simp [hbc, hbc2] at h2
    · by_cases hab2 : a = b
      · subst hab2
        by_cases hbc : a < c
        · simp [hbc]
        · by_cases hbc2 : a = c
          · subst hbc2
            simp only [Nat.lt_irrefl, if_false, if_pos rfl] at h1 h2 ⊢
            exact natListLe_trans as bs cs h1 h2
          · simp [hbc, hbc2] at h2
      · simp [hab, hab2] at h1

instance : IsTotal PatientFileEntry entryLe :=
  ⟨fun a b => natListLe_total (entryKey a) (entryKey b)⟩

instance : IsTrans PatientFileEntry entryLe :=
  ⟨fun a b c h1 h2 => natListLe_trans (entryKey a) (entryKey b) (entryKey c) h1 h2⟩

theorem normalize_ok_eq {dept : Department} {rows : List RawRow}
    {entries : List PatientFileEntry} (h : normalize dept rows = .ok entries) :
    entries = List.insertionSort entryLe (qualifying dept rows) := by
  unfold normalize at h
  split at h
  · cases h
  · cases h
    rfl

theorem qualifying_content_ne {dept : Department} {rows : List RawRow}
    {e : PatientFileEntry} (h : e ∈ qualifying dept rows) : e.content ≠ "" := by
  unfold qualifying at h
  rcases List.mem_filterMap.mp h with ⟨r, _, hr⟩
  rcases hc : r.content with _ | c
  · rw [hc] at hr
    cases hr
  · rw [hc, Option.some_bind] at hr
    by_cases h1 : c = ""
    · rw [if_pos h1] at hr
      cases hr
    · rw [if_neg h1] at hr
      by_cases h2 : r.category ∈ dept.categories
      · rw [if_pos h2] at hr
        injection hr with hr
        rw [← hr]
        exact h1
      · rw [if_neg h2] at hr
        cases hr

theorem normalize_ok_sorted {dept : Department} {rows : List RawRow}
    {entries : List PatientFileEntry} (h : normalize dept rows = .ok entries) :
    List.Sorted entryLe entries := by
  rw [normalize_ok_eq h]
  exact List.sorted_insertionSort entryLe (qualifying dept rows)

theorem normalize_ok_content_ne {dept : Department} {rows : List RawRow}
    {entries : List PatientFileEntry} (h : normalize dept rows = .ok entries) :
    ∀ e ∈ entries, e.content ≠ "" := by
  intro e he
  rw [normalize_ok_eq h] at he
  exact qualifying_content_ne ((List.perm_insertionSort entryLe _).mem_iff.mp he)

/-- C7: normalize is invariant under duplication of raw input rows —
raw rows that are exact duplicates by the (category, timestamp, content)
triple collapse to a single entry, so normalizing a row multiset equals
normalizing its deduplicated support set. -/
theorem normalize_dedup_invariant (dept : Department) (rows : List RawRow) :
    normalize dept rows = normalize dept rows.dedup := by
  unfold normalize qualifying
  rw [List.dedup_idem]

/-- C6: for every input row set the normalized entry sequence is sorted
ascending by (authored timestamp, category) and contains no entry with
empty content; and in the concrete scenario of encounter 1001 — a
Respiratie row dated 2024-04-20 and an Infectie row dated 2024-04-19 —
the Infectie entry precedes the Respiratie entry and the serialized user
prompt contains the date 19-04-2024 on an earlier line than 20-04-2024. -/
theorem normalize_sorted_and_scenario :
    (∀ (dept : Department) (rows : List RawRow) (entries : List PatientFileEntry),
        normalize dept rows = .ok entries →
          List.Sorted entryLe entries ∧ ∀ e ∈ entries, e.content ≠ "") ∧
      normalize scenarioAdmission.dept scenarioAdmission.rows = .ok [infEntry, respEntry] ∧
      ∃ i j, firstLineIdx (userPromptLines [infEntry, respEntry]) "19-04-2024" = some i ∧
        firstLineIdx (userPromptLines [infEntry, respEntry]) "20-04-2024" = some j ∧
        i < j := by
  refine ⟨fun dept rows entries h => ⟨normalize_ok_sorted h, normalize_ok_content_ne h⟩,
    by decide, 14, 15, by decide, by decide, by decide⟩

/-- C6 witness: the general part of `normalize_sorted_and_scenario`
applied to the concrete scenario input. -/
theorem normalize_sorted_and_scenario_witness :
    List.Sorted entryLe [infEntry, respEntry] ∧
      ∀ e ∈ [infEntry, respEntry], e.content ≠ "" :=
  normalize_sorted_and_scenario.1 scenarioAdmission.dept scenarioAdmission.rows
    [infEntry, respEntry] (by decide)

theorem keySetEq_iff {ks es : List String} :
    keySetEq ks es = true ↔ ∀ k, k ∈ ks ↔ k ∈ es := by
  unfold keySetEq
  rw [Bool.and_eq_true, List.all_eq_true, List.all_eq_true]
  constructor
  · intro h k
    exact ⟨fun hk => List.mem_of_elem_eq_true (h.1 k hk),
      fun hk => List.mem_of_elem_eq_true (h.2 k hk)⟩
  · intro h
    exact ⟨fun k hk => List.elem_eq_true_of_mem ((h k).mp hk),
      fun k hk => List.elem_eq_true_of_mem ((h k).mpr hk)⟩

/-- C1: if the Letter Generator returns outcome Success then the key set
of the letter's per-category mapping equals exactly the department's
configured category set (case-sensitive, order-insensitive) — no extra
and no missing keys; and when the model responds but the key set
mismatches, the outcome is ValidationError instead of Success. -/
theorem generate_success_keys
    (model : Prompt → Option (List (String × String))) (p : Prompt) (dept : Department) :
    (∀ letter, generate model p dept = .success letter →
        ∀ k, k ∈ letter.map Prod.fst ↔ k ∈ dept.categories) ∧
      ∀ kvs, model p = some kvs →
        ¬(∀ k, k ∈ kvs.map Prod.fst ↔ k ∈ dept.categories) →
        generate model p dept = .validationFailed := by
  constructor
  · intro letter h k
    rcases hm : model p with _ | kvs
    · simp only [generate, hm] at h
      cases h
    · simp only [generate, hm] at h
      by_cases hk : keySetEq (kvs.map Prod.fst) dept.categories = true
      · rw [if_pos hk] at h
        injection h with h
        rw [← h]
        exact keySetEq_iff.mp hk k
      · rw [if_neg hk] at h
        cases h
  · intro kvs hm hk
    simp only [generate, hm]
    rw [if_neg fun hc => hk (keySetEq_iff.mp hc)]

/-- C1 witness: `generate_success_keys` at a concrete model response
whose keys match the department's category set. -/
theorem generate_success_keys_witness :
    generate (fun _ => some [("Respiratie", "a"), ("Circulatie", "b"),
        ("Neurologie", "c"), ("Infectie", "d")]) ⟨"sys", "user"⟩ icDept =
      .success [("Respiratie", "a"), ("Circulatie", "b"), ("Neurologie", "c"),
        ("Infectie", "d")] ∧
      ("Respiratie" ∈ ([("Respiratie", "a"), ("Circulatie", "b"), ("Neurologie", "c"),
          ("Infectie", "d")].map Prod.fst) ↔ "Respiratie" ∈ icDept.categories) :=
  ⟨by decide,
    (generate_success_keys (fun _ => some [("Respiratie", "a"), ("Circulatie", "b"),
        ("Neurologie", "c"), ("Infectie", "d")]) ⟨"sys", "user"⟩ icDept).1
      [("Respiratie", "a"), ("Circulatie", "b"), ("Neurologie", "c"), ("Infectie", "d")]
      (by decide) "Respiratie"⟩

/-- C2: an admission whose qualifying entry set after filtering is empty
(for example, all raw rows have null content) fails with
EmptyPatientFileError before any model call: the trace records the
failure outcome, zero model invocations, and nothing sent downstream,
within the single (unretried) run. -/
theorem emptyPatientFile_no_model_call
    (redact : String → Option String)
    (model : Prompt → Option (List (String × String)))
    (cfg : PromptConfig) (adm : Admission)
    (h : qualifying adm.dept adm.rows = []) :
    runPipeline redact model cfg adm = ⟨.emptyPatientFile, 0, []⟩ := by
  unfold runPipeline
  have hn : normalize adm.dept adm.rows = .error .mk := by
    unfold normalize
    rw [h]
    rfl
  rw [hn]

/-- C2 witness: `emptyPatientFile_no_model_call` on an admission whose
only raw rows have null content. -/
theorem emptyPatientFile_no_model_call_witness :
    runPipeline some (fun _ => some []) ⟨fun _ => "sys", String.length, 1000⟩
        ⟨1001, icDept, [⟨"Respiratie", ⟨2024, 4, 20⟩, none⟩,
          ⟨"Infectie", ⟨2024, 4, 19⟩, none⟩]⟩ =
      ⟨.emptyPatientFile, 0, []⟩ :=
  emptyPatientFile_no_model_call some (fun _ => some [])
    ⟨fun _ => "sys", String.length, 1000⟩
    ⟨1001, icDept, [⟨"Respiratie", ⟨2024, 4, 20⟩, none⟩,
      ⟨"Infectie", ⟨2024, 4, 19⟩, none⟩]⟩ (by decide)

/-- C3: whenever the serialized text block of the prompt exceeds the
configured token ceiling the pipeline outcome for that admission is
LengthError — never Success, regardless of the entries' content — with
no model call issued in the (single, unretried) run. -/
theorem lengthExceeded_never_success
    (redact : String → Option String)
    (model : Prompt → Option (List (String × String)))
    (cfg : PromptConfig) (adm : Admission)
    (entries red : List PatientFileEntry)
    (hn : normalize adm.dept adm.rows = .ok entries)
    (hr : redactEntries redact entries = some red)
    (hl : cfg.ceiling < cfg.tokenCount (userPromptText red)) :
    (runPipeline redact model cfg adm).outcome = .lengthExceeded ∧
      (∀ l, (runPipeline redact model cfg adm).outcome ≠ .success l) ∧
      (runPipeline redact model cfg adm).modelCalls = 0 := by
  have hb : build cfg adm.dept red = .error .mk := by
    unfold build
    rw [if_pos hl]
  have hp : runPipeline redact model cfg adm =
      ⟨.lengthExceeded, 0, red.map (·.content)⟩ := by
    simp only [runPipeline, hn, hr, hb]
  rw [hp]
  exact ⟨rfl, fun l h => Outcome.noConfusion h, rfl⟩

set_option maxRecDepth 8000 in
/-- C3 witness: `lengthExceeded_never_success` with a zero ceiling and a
length tokenizer, where any nonempty serialized block overflows. -/
theorem lengthExceeded_never_success_witness :
    (runPipeline some (fun _ => some []) ⟨fun _ => "sys", String.length, 0⟩
        scenarioAdmission).outcome = .lengthExceeded ∧
      (runPipeline some (fun _ => some []) ⟨fun _ => "sys", String.length, 0⟩
        scenarioAdmission).modelCalls = 0 := by
  have h := lengthExceeded_never_success some (fun _ => some [])
    ⟨fun _ => "sys", String.length, 0⟩ scenarioAdmission
    [infEntry, respEntry] [infEntry, respEntry] (by decide) (by decide) (by decide)
  exact ⟨h.1, h.2.2⟩

/-- C4: when the redaction step fails for an admission, the run is a hard
stop — the trace records the redaction failure, zero model invocations,
and no text sent to any downstream component (Prompt Builder, model
service, or Letter Store). -/
theorem redactionFailed_hard_stop
    (redact : String → Option String)
    (model : Prompt → Option (List (String × String)))
    (cfg : PromptConfig) (adm : Admission)
    (entries : List PatientFileEntry)
    (hn : normalize adm.dept adm.rows = .ok entries)
    (hr : redactEntries redact entries = none) :
    runPipeline redact model cfg adm = ⟨.redactionFailed, 0, []⟩ := by
  simp only [runPipeline, hn, hr]

/-- C4 witness: `redactionFailed_hard_stop` with a redaction capability
that always throws. -/
theorem redactionFailed_hard_stop_witness :
    runPipeline (fun _ => none) (fun _ => some [])
        ⟨fun _ => "sys", String.length, 1000⟩ scenarioAdmission =
      ⟨.redactionFailed, 0, []⟩ :=
  redactionFailed_hard_stop (fun _ => none) (fun _ => some [])
    ⟨fun _ => "sys", String.length, 1000⟩ scenarioAdmission
    [infEntry, respEntry] (by decide) (by decide)

theorem filter_current_save (store : List StoredLetter) (aid ts : Nat)
    (l : List (String × String)) (a : Nat) :
    (save store aid ts l).filter (fun r => r.admissionId = a && r.isCurrent) =
      if a = aid then [⟨aid, ts, l, true⟩]
      else store.filter (fun r => r.admissionId = a && r.isCurrent) := by
  unfold save
  rw [List.filter_append,
    List.filter_map
      (fun r : StoredLetter => if r.admissionId = aid then { r with isCurrent := false } else r)]
  have htail : List.filter (fun r => r.admissionId = a && r.isCurrent)
      [(⟨aid, ts, l, true⟩ : StoredLetter)] =
      if a = aid then [⟨aid, ts, l, true⟩] else [] := by
    by_cases h : a = aid
    · subst h
      simp [List.filter]
    · rw [if_neg h]
      have h2 : ¬aid = a := fun hc => h hc.symm
      simp [List.filter, h2]
  rw [htail]
  by_cases h : a = aid
  · subst h
    rw [if_pos rfl, if_pos rfl]
    have hnil : store.filter ((fun r => r.admissionId = a && r.isCurrent) ∘
        fun r => if r.admissionId = a then { r with isCurrent := false } else r) = [] := by
      apply List.filter_eq_nil_iff.mpr
      intro r _
      by_cases h1 : r.admissionId = a
      · simp [Function.comp, h1]
      · simp [Function.comp, h1]
    rw [hnil]
    rfl
  · rw [if_neg h, if_neg h, List.append_nil]
    have hcongr : store.filter ((fun r => r.admissionId = a && r.isCurrent) ∘
        fun r => if r.admissionId = aid then { r with isCurrent := false } else r) =
        store.filter (fun r => r.admissionId = a && r.isCurrent) := by
      apply List.filter_congr
      intro r _
      have h3 : ¬aid = a := fun hc => h hc.symm
      by_cases h1 : r.admissionId = aid
      · simp [Function.comp, h1, h3]
      · simp [Function.comp, h1]
    rw [hcongr]
    refine (List.map_congr_left (g := id) ?_).trans (List.map_id _)
    intro r hr
    rcases List.mem_filter.mp hr with ⟨_, hp⟩
    have h2 : r.admissionId = a := by
      rw [Bool.and_eq_true] at hp
      exact of_decide_eq_true hp.1
    have h3 : ¬r.admissionId = aid := fun hc => h (by rw [← h2, hc])
    simp [h3]

theorem currentCount_save (store : List StoredLetter) (aid ts : Nat)
    (l : List (String × String)) (a : Nat) :
    currentCount (save store aid ts l) a = if a = aid then 1 else currentCount store a := by
  unfold currentCount
  rw [filter_current_save]
  by_cases h : a = aid
  · simp [h]
  · simp [h]

theorem getLatest_save (store : List StoredLetter) (aid ts : Nat)
    (l : List (String × String)) :
    getLatest (save store aid ts l) aid = some (ts, l) := by
  unfold getLatest
  rw [filter_current_save, if_pos rfl]

theorem history_save_same (store : List StoredLetter) (aid ts : Nat)
    (l : List (String × String)) :
    history (save store aid ts l) aid = history store aid ++ [(ts, l)] := by
  unfold history save
  rw [List.filter_append, List.map_append,
    List.filter_map
      (fun r : StoredLetter => if r.admissionId = aid then { r with isCurrent := false } else r)]
  have htail : (List.filter (fun r => decide (r.admissionId = aid))
      [(⟨aid, ts, l, true⟩ : StoredLetter)]).map (fun r => (r.genTimestamp, r.letter)) =
      [(ts, l)] := by
    simp [List.filter]
  rw [htail]
  congr 1
  have hcongr : store.filter ((fun r => decide (r.admissionId = aid)) ∘
      fun r => if r.admissionId = aid then { r with isCurrent := false } else r) =
      store.filter (fun r => decide (r.admissionId = aid)) := by
    apply List.filter_congr
    intro r _
    by_cases h1 : r.admissionId = aid
    · simp [Function.comp, h1]
    · simp [Function.comp, h1]
  rw [hcongr, List.map_map]
  apply List.map_congr_left
  intro r _
  by_cases h1 : r.admissionId = aid
  · simp [Function.comp, h1]
  · simp [Function.comp, h1]

theorem currentCount_applySaves_le (ops : List (Nat × Nat × List (String × String))) :
    ∀ store : List StoredLetter, (∀ a, currentCount store a ≤ 1) →
      ∀ a, currentCount (applySaves store ops) a ≤ 1 := by
  induction ops with
  | nil => exact fun store h a => h a
  | cons op ops ih =>
    intro store h a
    refine ih (save store op.1 op.2.1 op.2.2) (fun b => ?_) a
    rw [currentCount_save]
    by_cases hb : b = op.1
    · rw [if_pos hb]
    · rw [if_neg hb]
      exact h b

/-- C5: the Letter Store keeps at most one letter flagged current per
admission across any sequence of saves from the empty store; each save
appends to the retained history of its admission without deleting prior
letters, and getLatest afterwards returns the letter just saved; in the
concrete scenario, after saving two letters for admission 1001, getLatest
returns the second while the history query returns both. -/
theorem letterStore_current_invariant :
    (∀ (ops : List (Nat × Nat × List (String × String))) (a : Nat),
        currentCount (applySaves [] ops) a ≤ 1) ∧
      (∀ (store : List StoredLetter) (aid ts : Nat) (l : List (String × String)),
        history (save store aid ts l) aid = history store aid ++ [(ts, l)]) ∧
      (∀ (store : List StoredLetter) (aid ts : Nat) (l : List (String × String)),
        getLatest (save store aid ts l) aid = some (ts, l)) ∧
      getLatest (save (save [] 1001 1 letterA) 1001 2 letterB) 1001 = some (2, letterB) ∧
      history (save (save [] 1001 1 letterA) 1001 2 letterB) 1001 =
        [(1, letterA), (2, letterB)] :=
  ⟨fun ops a => currentCount_applySaves_le ops [] (fun _ => Nat.zero_le 1) a,
    history_save_same, getLatest_save, by decide, by decide⟩

theorem length_filter_stale (store : List StoredLetter) (now window : Nat) :
    (store.filter fun r => !isStale now window r).length +
      (store.filter (isStale now window)).length = store.length := by
  induction store with
  | nil => rfl
  | cons r rs ih =>
    cases hb : isStale now window r <;> simp [List.filter_cons, hb] <;> omega

/-- C8: purgeOlderThan deletes exactly the letters whose generation
timestamp is older than the retention window — a letter survives the
purge iff it is in the store and not stale — and returns the number of
rows deleted; in the concrete scenario with one letter generated 40 days
ago and one 5 days ago, a 30-day purge deletes exactly the former and
returns count 1. -/
theorem purgeOlderThan_exact :
    (∀ (store : List StoredLetter) (now window : Nat) (r : StoredLetter),
        r ∈ (purgeOlderThan store now window).1 ↔
          r ∈ store ∧ isStale now window r = false) ∧
      (∀ (store : List StoredLetter) (now window : Nat),
        (purgeOlderThan store now window).2 =
          (store.filter (isStale now window)).length) ∧
      purgeOlderThan [⟨1001, 0, letterA, true⟩, ⟨1002, 35, letterB, true⟩] 40 30 =
        ([⟨1002, 35, letterB, true⟩], 1) := by
  refine ⟨fun store now window r => ?_, fun store now window => ?_, by decide⟩
  · simp only [purgeOlderThan]
    rw [List.mem_filter, Bool.not_eq_true']
  · have h1 := length_filter_stale store now window
    have h2 := List.length_filter_le (fun r => !isStale now window r) store
    simp only [purgeOlderThan]
    omega

/-- C9: each admission attempted in a batch run gets its outcome status
persisted, failures included — the records list has one entry per
admission, the record of the i-th admission is a function of that
admission alone, and the batch over a concatenation is the concatenation
of the batches, so no admission's failure aborts the others. -/
theorem runBatch_independent
    (redact : String → Option String)
    (model : Prompt → Option (List (String × String)))
    (cfg : PromptConfig) :
    (∀ adms : List Admission, (runBatch redact model cfg adms).length = adms.length) ∧
      (∀ (adms : List Admission) (i : Nat),
        (runBatch redact model cfg adms)[i]? =
          (adms[i]?).map fun a => (a.id, (runPipeline redact model cfg a).outcome)) ∧
      ∀ adms1 adms2 : List Admission,
        runBatch redact model cfg (adms1 ++ adms2) =
          runBatch redact model cfg adms1 ++ runBatch redact model cfg adms2 := by
  refine ⟨fun adms => List.length_map _ _, fun adms i => ?_, fun adms1 adms2 => ?_⟩
  · unfold runBatch
    rw [List.getElem?_map]
  · unfold runBatch
    rw [List.map_append]

/-- C10: both the Metavision and the HiX extraction queries (and the
deploy query) compute pseudo_id as the same hash of the patient
identifier concatenated with the fixed suffix aiva: the pseudo_id is
determined by the patient identifier alone (no other attribute
influences it, and repeated runs agree), the three queries agree on equal
patient identifiers, and — when the hash is injective — equal pseudo_ids
across the two EHR sources imply equal patient identifiers. -/
theorem pseudoId_deterministic_cross_source :
    (∀ (h : String → String) (e1 e2 : MetavisionEncounter),
        e1.subject_Patient_value = e2.subject_Patient_value →
          metavisionPseudoId h e1 = metavisionPseudoId h e2) ∧
      (∀ (h : String → String) (e : MetavisionEncounter) (x : HixEncounter),
        e.subject_Patient_value = x.subject_Patient_value →
          metavisionPseudoId h e = hixPseudoId h x ∧
            deployPseudoId h e = metavisionPseudoId h e) ∧
      ∀ h : String → String, Function.Injective h →
        ∀ (e : MetavisionEncounter) (x : HixEncounter),
          metavisionPseudoId h e = hixPseudoId h x →
            e.subject_Patient_value = x.subject_Patient_value := by
  refine ⟨fun h e1 e2 he => ?_, fun h e x he => ⟨?_, rfl⟩, fun h hinj e x he => ?_⟩
  · unfold metavisionPseudoId pseudo_id
    rw [he]
  · unfold metavisionPseudoId hixPseudoId pseudo_id
    rw [he]
  · have h1 : e.subject_Patient_value ++ "aiva" = x.subject_Patient_value ++ "aiva" :=
      hinj he
    have h2 : (e.subject_Patient_value ++ "aiva").data =
        (x.subject_Patient_value ++ "aiva").data := by rw [h1]
    rw [String.data_append, String.data_append] at h2
    exact String.ext (List.append_cancel_right h2)

/-- C10 witness: `pseudoId_deterministic_cross_source` with the identity
function standing for the hash, on rows that differ in every attribute
except the patient identifier. -/
theorem pseudoId_deterministic_cross_source_witness :
    (⟨"123", "enc9", 7, "Neonatologie"⟩ : MetavisionEncounter).subject_Patient_value =
      (⟨"123", "enc4", 11, "CAR"⟩ : HixEncounter).subject_Patient_value :=
  pseudoId_deterministic_cross_source.2.2 id Function.injective_id
    ⟨"123", "enc9", 7, "Neonatologie"⟩ ⟨"123", "enc4", 11, "CAR"⟩ rfl

end DischargeDocs
